import Mathlib

/-!
Shallow embedding of the live-sync and allocation-edit core of the
Zen_Algorithm operator console, translated from
frontend/src/components/dashboard/Strategies.jsx and
frontend/src/components/dashboard/Performance.jsx.

JavaScript numbers are modelled as exact rationals.  The NaN value is
unreachable for every capital the edit modal can produce (the input
handler guards with parseFloat and an isNaN check, Performance.jsx lines
451-463) and is therefore not modelled.  A capital cell is either a
number or the empty-string sentinel left behind when the input field is
cleared.  Trailing display-only fields (colours, toFixed strings) are
omitted; every omission is noted on the definition it concerns.
-/

/-- A JavaScript capital cell: a number, or the empty-string sentinel
set when the operator clears the input (Performance.jsx line 454). -/
inductive Cap where
  | num (q : ℚ)
  | empty
deriving DecidableEq

/-- Numeric coercion of a capital cell as JavaScript arithmetic performs
it: the empty string coerces to 0. -/
def Cap.toQ : Cap → ℚ
  | .num q => q
  | .empty => 0

/-- Commit-time validation (Performance.jsx line 133):
typeof capital is number, not NaN, and greater than 0.  The empty-string
sentinel has typeof string and fails the first test. -/
def Cap.isValid : Cap → Bool
  | .num q => decide (0 < q)
  | .empty => false

/-- The expression x || d on JavaScript numbers: 0 is falsy and is
replaced by the fallback d. -/
def jsOr (x d : ℚ) : ℚ := if x = 0 then d else x

/-- The client trading mode (App state, the strings PAPER and REAL). -/
inductive TradingMode where
  | PAPER
  | REAL
deriving DecidableEq

/-- Lower-casing of a status string (JavaScript toLowerCase), taken on
the character list of the string. -/
def lowerList (l : List Char) : List Char := l.map Char.toLower

/-- The first list is a leading segment of the second (JavaScript
startsWith). -/
def leadsWith : List Char → List Char → Bool
  | [], _ => true
  | _ :: _, [] => false
  | a :: as, b :: bs => a = b && leadsWith as bs

/-- The first list occurs as a contiguous segment of the second
(JavaScript includes). -/
def hasSub (t : List Char) : List Char → Bool
  | [] => t.isEmpty
  | b :: bs => leadsWith t (b :: bs) || hasSub t bs

/-- One raw strategy record of the backend stats document (spec section
6), as consumed by mapStrategies in Strategies.jsx and by fetchMetrics in
Performance.jsx.  A missing status arrives as the empty string, modelled
by the empty character list.  Fields that feed only presentation strings
(win_rate, wins, losses, trades, position) are omitted. -/
structure RawStrategy where
  name : String
  pnl : ℚ
  pnl_pct : ℚ
  status : List Char
  capital : ℚ
deriving DecidableEq

/-- The backend stats document, also the shape of a plain push snapshot.
total_capital is optional because Performance.jsx line 53 tests it
against undefined before accepting the payload; strategies is optional
because both components guard on its presence before mapping. -/
structure SnapshotDoc where
  total_capital : Option ℚ
  total_initial : Option ℚ
  total_pnl_pct : Option ℚ
  total_win_rate : Option ℚ
  running : Bool
  equity_curve : Option (List (ℚ × ℚ))
  strategies : Option (List RawStrategy)
deriving DecidableEq

/-- Status-token test of mapStrategies (Strategies.jsx lines 19-24):
case-insensitive containment of active, monitoring or scanning, or a
case-insensitive nifty lead. -/
def isActuallyActive (rawStatus : List Char) : Bool :=
  hasSub ("active".data) (lowerList rawStatus) ||
  hasSub ("monitoring".data) (lowerList rawStatus) ||
  hasSub ("scanning".data) (lowerList rawStatus) ||
  leadsWith ("nifty".data) (lowerList rawStatus)

/-- Status normalization of mapStrategies (Strategies.jsx line 31): the
literal Active when the token test succeeds, otherwise the raw backend
status string unchanged. -/
def normStatus (raw : List Char) : List Char :=
  if isActuallyActive raw then "Active".data else raw

/-- Normalized strategy row produced by mapStrategies (Strategies.jsx
lines 16-44).  The metrics block, thoughts text and activeTrade passthrough
are presentation fields and are omitted. -/
structure MappedStrategy where
  id : ℕ
  name : String
  profit : ℚ
  profitPct : ℚ
  status : List Char
  isPro : Bool
deriving DecidableEq

/-- mapStrategies (Strategies.jsx lines 16-44) at the default index
offset 0 used by every caller.  Backend records carry no id field (spec
section 6), so the id fallback idx + 1 always applies; the or-zero
fallbacks on pnl and pnl_pct are the identity on the rational model. -/
def mapStrategies (d : SnapshotDoc) : List MappedStrategy :=
  match d.strategies with
  | none => []
  | some ss => ss.enum.map fun p =>
      { id := p.1 + 1
        name := if p.2.name = "" then "Unknown Strategy" else p.2.name
        profit := p.2.pnl
        profitPct := p.2.pnl_pct
        status := normStatus p.2.status
        isPro := decide ((10 : ℚ) < p.2.pnl_pct) }

/-- Canonical state of the Strategies.jsx component: the mapped strategy
list, the totalStats chip values and the master-running flag.  The
formatted strings (winRate percent text, alpha toFixed) are kept as their
numeric contents. -/
structure StratCanon where
  strategies : List MappedStrategy
  aum : ℚ
  winRate : ℚ
  alpha : ℚ
  running : Bool
deriving DecidableEq

/-- Applying an accepted document: the shared body of fetchData
(Strategies.jsx lines 52-60) and onUpdate (lines 78-86).  The previous
canonical state is replaced wholesale. -/
def applyDoc (d : SnapshotDoc) : StratCanon :=
  { strategies := mapStrategies d
    aum := d.total_capital.getD 0
    winRate := d.total_win_rate.getD 0
    alpha := d.total_pnl_pct.getD 0 / 10
    running := d.running }

/-- A push payload on the stats channel: either a plain snapshot document
or the dual-mode envelope carrying a PAPER and a REAL sub-document. -/
inductive PushMsg where
  | plain (d : SnapshotDoc)
  | dual (paper real : Option SnapshotDoc)
deriving DecidableEq

/-- Sub-payload selection of onUpdate (Strategies.jsx lines 73-76): for a
dual envelope, the document under the upper-cased mode key, with the
or-fallback to the PAPER document. -/
def selectPayload (mode : TradingMode) : PushMsg → Option SnapshotDoc
  | .plain d => some d
  | .dual paper real =>
    match mode with
    | .PAPER => paper
    | .REAL =>
      match real with
      | some d => some d
      | none => paper

/-- One arriving update at the Strategies.jsx synchronizer: a successful
pull response, a failed pull (network error swallowed by the catch), or a
push event on the stats channel. -/
inductive StratEvent where
  | pullOk (d : SnapshotDoc)
  | pullFail
  | push (m : PushMsg)

/-- One synchronizer step of Strategies.jsx (fetchData lines 46-66 and
onUpdate lines 72-87).  The Bool records whether the state-change
callback batch (setStrategies, setTotalStats, setIsLiveBotActive) fired
for this event.  No equality comparison with the previous canonical
state occurs anywhere on either channel. -/
def stratStep (mode : TradingMode) (c : StratCanon) : StratEvent → StratCanon × Bool
  | .pullOk d => if d.strategies.isSome then (applyDoc d, true) else (c, false)
  | .pullFail => (c, false)
  | .push m =>
    match selectPayload mode m with
    | some d => if d.strategies.isSome then (applyDoc d, true) else (c, false)
    | none => (c, false)

/-- Feeding a sequence of updates to the Strategies.jsx synchronizer,
counting state-change callback firings. -/
def runStrat (mode : TradingMode) (c : StratCanon) : List StratEvent → StratCanon × ℕ
  | [] => (c, 0)
  | e :: es =>
    let s := stratStep mode c e
    let r := runStrat mode s.1 es
    (r.1, (if s.2 then 1 else 0) + r.2)

/-- Whether an event carries an applicable snapshot, that is, a selected
payload whose strategies list is present.  This depends only on the
event, never on the current canonical state. -/
def acceptsEvent (mode : TradingMode) : StratEvent → Bool
  | .pullOk d => d.strategies.isSome
  | .pullFail => false
  | .push m =>
    match selectPayload mode m with
    | some d => d.strategies.isSome
    | none => false

/-- Strategy row as mapped inside fetchMetrics (Performance.jsx lines
63-69): the capital share percent of the reported total.  The colour
field is presentation and omitted.  The capital is a Cap because
saveOrder stores raw modal values, possibly the empty sentinel, back
into this state. -/
structure PerfStrategy where
  name : String
  capital : Cap
  pct : ℚ
deriving DecidableEq

/-- The strategies mapping of fetchMetrics (Performance.jsx lines 63-69):
pct is capital divided by (total_capital || 1), times 100. -/
def mapPerf (ss : List RawStrategy) (tc : ℚ) : List PerfStrategy :=
  ss.map fun s => { name := s.name, capital := .num s.capital, pct := s.capital / jsOr tc 1 * 100 }

/-- Canonical Performance.jsx state written by an accepted pull. -/
structure PerfCanon where
  liveEquity : ℚ
  totalInitial : ℚ
  pnlPct : ℚ
  totalCapital : ℚ
  equityCurve : List (ℚ × ℚ)
  allStrategies : List PerfStrategy
deriving DecidableEq

/-- Acceptance body of fetchMetrics (Performance.jsx lines 53-72):
applied only when total_capital is not undefined; the strategies list is
remapped only when present, otherwise it is left as it was. -/
def applyStats (c : PerfCanon) (d : SnapshotDoc) : PerfCanon :=
  match d.total_capital with
  | none => c
  | some tc =>
    { liveEquity := tc
      totalInitial := d.total_initial.getD 0
      pnlPct := d.total_pnl_pct.getD 0
      totalCapital := tc
      equityCurve := d.equity_curve.getD []
      allStrategies :=
        match d.strategies with
        | none => c.allStrategies
        | some ss => mapPerf ss tc }

/-- Performance.jsx component state: the two pause flags and the
canonical cell. -/
structure PerfState where
  showEditModal : Bool
  isSaving : Bool
  canon : PerfCanon
deriving DecidableEq

/-- An update arriving while the Performance component is mounted: a
pull tick whose fetch either fails or yields a parsed document, or a
push event on the stats channel. -/
inductive PerfEvent where
  | pullTick (r : Option SnapshotDoc)
  | push (m : PushMsg)

/-- One Performance.jsx sync step (fetchMetrics, lines 46-78).  The
guard on line 47 returns before the request is issued whenever the edit
modal is open or a commit is settling, so the tick is dropped, not
queued.  Performance.jsx imports no socket and registers no push
handler, so a push event never touches this state.  The Bool records
whether the state-change callback batch fired. -/
def perfStep (s : PerfState) : PerfEvent → PerfState × Bool
  | .pullTick r =>
    if s.showEditModal || s.isSaving then (s, false)
    else
      match r with
      | none => (s, false)
      | some d =>
        if d.total_capital.isSome then ({ s with canon := applyStats s.canon d }, true)
        else (s, false)
  | .push _ => (s, false)

/-- The persistence loop of saveOrder (Performance.jsx lines 129-144):
one setAllocation POST per proposed entry whose capital is valid and
differs from the capital of the pre-edit original found by name. -/
def allocCalls (pre : List PerfStrategy) : List PerfStrategy → List (String × ℚ)
  | [] => []
  | s :: rest =>
    match s.capital, pre.find? (fun os => os.name = s.name) with
    | .num q, some os =>
      if 0 < q ∧ os.capital ≠ .num q then (s.name, q) :: allocCalls pre rest
      else allocCalls pre rest
    | _, _ => allocCalls pre rest

/-- The validated-or-fallback capital of one proposed entry (Performance
lines 149-152): the proposed capital when valid, otherwise the capital
of the pre-edit original found by name, or 0 when absent.  The or-zero
on the found capital coincides with the numeric coercion toQ. -/
def validCapital (pre : List PerfStrategy) (s : PerfStrategy) : ℚ :=
  if s.capital.isValid then s.capital.toQ
  else ((pre.find? fun os => os.name = s.name).map fun os => os.capital.toQ).getD 0

/-- Result of a commit: the issued persistence calls and the post-commit
local state (saveOrder, Performance.jsx lines 123-174). -/
structure SaveResult where
  calls : List (String × ℚ)
  newStrategies : List PerfStrategy
  newTotalCapital : ℚ
  newOrder : List String
deriving DecidableEq

/-- saveOrder (Performance.jsx lines 123-174): the persistence calls for
changed valid entries, then the mode-aware local recomputation.  The
denominator is the externally reported total (or-fallback the sum) in
REAL mode and the sum of validated-or-fallback capitals in PAPER mode.
The final mapping on lines 160-163 runs over the raw proposed entries,
not over the validated list: only the denominator uses the fallback, and
in PAPER mode totalCapital is locally replaced by the sum. -/
def saveOrder (mode : TradingMode) (totalCapital : ℚ) (pre : List PerfStrategy)
    (newOrder : List String) (updated : List PerfStrategy) : SaveResult :=
  let sumOfCapitals := (updated.map (validCapital pre)).sum
  let denominator := if mode = .REAL then jsOr totalCapital sumOfCapitals else sumOfCapitals
  { calls := allocCalls pre updated
    newStrategies := updated.map fun s => { s with pct := s.capital.toQ / jsOr denominator 1 * 100 }
    newTotalCapital := if mode = .REAL then totalCapital else sumOfCapitals
    newOrder := newOrder }

/-- The percent shown beside each modal row (Performance.jsx line 469):
capital divided by (totalCapital || 1), times 100. -/
def modalPct (s : PerfStrategy) (totalCapital : ℚ) : ℚ :=
  s.capital.toQ / jsOr totalCapital 1 * 100

/-- JavaScript indexOf on the persisted priority order: minus one when
the name is absent. -/
def idxOf (order : List String) (n : String) : Int :=
  match order.indexOf? n with
  | some i => (i : Int)
  | none => -1

/-- The comparator of displayedAllocations for a non-empty priority
order (Performance.jsx lines 108-115): names missing from the order sort
to the end, known names by their index, ties left in original order. -/
def priorityCmp (order : List String) (a b : PerfStrategy) : Int :=
  if idxOf order a.name = -1 ∧ idxOf order b.name = -1 then 0
  else if idxOf order a.name = -1 then 1
  else if idxOf order b.name = -1 then -1
  else idxOf order a.name - idxOf order b.name

/-- Descending capital-share order used when the priority order is empty
(Performance.jsx line 117, comparator b.pct - a.pct). -/
def pctDesc (a b : PerfStrategy) : Prop := b.pct ≤ a.pct

instance : DecidableRel pctDesc := fun a b => inferInstanceAs (Decidable (b.pct ≤ a.pct))

instance : IsTotal PerfStrategy pctDesc := ⟨fun a b => le_total b.pct a.pct⟩

instance : IsTrans PerfStrategy pctDesc := ⟨fun _ _ _ h1 h2 => le_trans h2 h1⟩

/-- The priority comparator as an at-most-zero order, the order by which
a consistent JavaScript comparator sorts. -/
def priorityLe (order : List String) (a b : PerfStrategy) : Prop :=
  priorityCmp order a b ≤ 0

instance (order : List String) : DecidableRel (priorityLe order) :=
  fun a b => inferInstanceAs (Decidable (priorityCmp order a b ≤ 0))

/-- displayedAllocations (Performance.jsx lines 104-121): the top five of
the stable sort of the mapped strategies, under the priority comparator
when an order is persisted and under descending capital share otherwise.
Array sort with a consistent comparator is the stable sort by its
at-most-zero order, modelled by the stable insertionSort. -/
def displayedAllocations (order : List String) (ss : List PerfStrategy) : List PerfStrategy :=
  let sorted :=
    if order ≠ [] then List.insertionSort (priorityLe order) ss
    else List.insertionSort pctDesc ss
  sorted.take 5

/-- Descending pnl-percent order on raw records. -/
def pnlDesc (a b : RawStrategy) : Prop := b.pnl_pct ≤ a.pnl_pct

instance : DecidableRel pnlDesc := fun a b => inferInstanceAs (Decidable (b.pnl_pct ≤ a.pnl_pct))

/-- Modelled from the spec: the ranking the specification prescribes for
an empty priority order, descending pnlPercent over the snapshot
strategies.  Stated only to be compared with displayedAllocations, which
the source ranks by capital share. -/
def rankByPnlDesc (ss : List RawStrategy) : List RawStrategy :=
  List.insertionSort pnlDesc ss

/-- Helper: whether the callback fires for an event depends only on the
event, never on the current canonical state. -/
theorem stratStep_fired_eq_accepts (mode : TradingMode) (c : StratCanon) (e : StratEvent) :
    (stratStep mode c e).2 = acceptsEvent mode e := by
  cases e with
  | pullOk d => by_cases h : d.strategies.isSome <;> simp [stratStep, acceptsEvent, h]
  | pullFail => rfl
  | push m =>
    cases hm : selectPayload mode m with
    | none => simp [stratStep, acceptsEvent, hm]
    | some d => by_cases h : d.strategies.isSome <;> simp [stratStep, acceptsEvent, hm, h]

/-- C1: the Strategies.jsx synchronizer performs no structural-equality
comparison: the number of state-change callback firings over any event
sequence equals the number of events carrying an applicable payload,
independently of the starting canonical state — duplicates are never
discarded. -/
theorem c1_every_applicable_payload_fires (mode : TradingMode) (c : StratCanon)
    (es : List StratEvent) :
    (runStrat mode c es).2 = es.countP (acceptsEvent mode) := by
  induction es generalizing c with
  | nil => rfl
  | cons e es ih =>
    simp [runStrat, List.countP_cons, ih (stratStep mode c e).1, stratStep_fired_eq_accepts]
    cases acceptsEvent mode e <;> simp [Nat.add_comm]

/-- C1 counterexample: feeding the synchronizer the same normalized
payload twice (two consecutive pulls returning the identical snapshot)
fires the state-change callback twice, not once as the claim states. -/
theorem c1_duplicate_pull_counterexample :
    (runStrat .PAPER ⟨[], 0, 0, 0, true⟩
      [.pullOk ⟨some 1000, some 1000, some 0, some 0, true, some [], some [⟨"Alpha", 0, 0, [], 1000⟩]⟩,
       .pullOk ⟨some 1000, some 1000, some 0, some 0, true, some [], some [⟨"Alpha", 0, 0, [], 1000⟩]⟩]).2 = 2
    ∧ (2 : ℕ) ≠ 1 :=
  ⟨rfl, by decide⟩

/-- C2: committing the Paper-mode scenario X: 1000 → 3000, Y: 1000
unchanged yields local totalCapital 4000, X at 75 percent and Y at 25
percent. -/
theorem c2_paper_commit_scenario :
    (saveOrder .PAPER 2000 [⟨"X", .num 1000, 50⟩, ⟨"Y", .num 1000, 50⟩] ["X", "Y"]
      [⟨"X", .num 3000, 50⟩, ⟨"Y", .num 1000, 50⟩]).newTotalCapital = 4000
    ∧ ((saveOrder .PAPER 2000 [⟨"X", .num 1000, 50⟩, ⟨"Y", .num 1000, 50⟩] ["X", "Y"]
      [⟨"X", .num 3000, 50⟩, ⟨"Y", .num 1000, 50⟩]).newStrategies.map fun s => s.pct) = [75, 25] := by
  constructor
  · simp [saveOrder, validCapital, Cap.isValid, Cap.toQ, jsOr]
    norm_num
  · simp [saveOrder, validCapital, Cap.isValid, Cap.toQ, jsOr]
    norm_num

/-- C3 counterexample: a proposed entry with negative capital is invalid,
yet the post-commit local state stores the raw proposed value, not the
pre-edit capital the claim demands. -/
theorem c3_invalid_entry_counterexample :
    Cap.isValid (.num (-5)) = false
    ∧ ((saveOrder .PAPER 2000 [⟨"X", .num 1000, 50⟩, ⟨"Y", .num 1000, 50⟩] ["X", "Y"]
        [⟨"X", .num (-5), 50⟩, ⟨"Y", .num 1000, 50⟩]).newStrategies.map fun s => s.capital)
      = [.num (-5), .num 1000]
    ∧ Cap.num (-5) ≠ Cap.num 1000 := by
  refine ⟨by decide, by simp [saveOrder], by decide⟩

/-- C3 amended: an invalid proposed entry falls back to its pre-edit
capital only inside the denominator sum; the entry stored in the
post-commit state keeps the raw proposed capital. -/
theorem c3_fallback_only_in_denominator (mode : TradingMode) (tc : ℚ)
    (pre : List PerfStrategy) (newOrd : List String) (upd : List PerfStrategy)
    (s : PerfStrategy) (hs : s ∈ upd) (hv : s.capital.isValid = false) :
    validCapital pre s = ((pre.find? fun os => os.name = s.name).map fun os => os.capital.toQ).getD 0
    ∧ ∃ t ∈ (saveOrder mode tc pre newOrd upd).newStrategies,
        t.name = s.name ∧ t.capital = s.capital := by
  constructor
  · simp [validCapital, hv]
  · simp only [saveOrder]
    exact ⟨_, List.mem_map_of_mem _ hs, rfl, rfl⟩

/-- C3 witness: the fallback-versus-stored split at a concrete commit
with a cleared capital field. -/
theorem c3_fallback_witness :
    ((⟨"X", Cap.empty, 0⟩ : PerfStrategy) ∈ [(⟨"X", Cap.empty, 0⟩ : PerfStrategy)])
    ∧ Cap.isValid Cap.empty = false
    ∧ (validCapital [⟨"X", Cap.num 7, 50⟩] ⟨"X", Cap.empty, 0⟩ =
        ((([⟨"X", Cap.num 7, 50⟩] : List PerfStrategy).find? fun os => os.name = "X").map
          fun os => os.capital.toQ).getD 0
      ∧ ∃ t ∈ (saveOrder .PAPER 0 [⟨"X", Cap.num 7, 50⟩] [] [⟨"X", Cap.empty, 0⟩]).newStrategies,
          t.name = "X" ∧ t.capital = Cap.empty) :=
  ⟨List.mem_singleton.mpr rfl, rfl,
    c3_fallback_only_in_denominator .PAPER 0 [⟨"X", Cap.num 7, 50⟩] [] [⟨"X", Cap.empty, 0⟩]
      ⟨"X", Cap.empty, 0⟩ (List.mem_singleton.mpr rfl) rfl⟩

/-- C4 counterexample: a Paper-mode commit containing one cleared
(invalid) entry and one positive entry yields locally recomputed
percentages summing to 50, not 100, because the stored percentages are
computed from the raw proposed capitals while the denominator uses the
fallback capitals. -/
theorem c4_sum_percent_counterexample :
    (((saveOrder .PAPER 2000 [⟨"X", .num 1000, 50⟩, ⟨"Y", .num 1000, 50⟩] ["X", "Y"]
        [⟨"X", .empty, 50⟩, ⟨"Y", .num 1000, 50⟩]).newStrategies.map fun s => s.pct)).sum = 50
    ∧ ((50 : ℚ) ≠ 100)
    ∧ Cap.isValid (.num 1000) = true := by
  refine ⟨?_, by norm_num, by decide⟩
  simp [saveOrder, validCapital, Cap.isValid, Cap.toQ, jsOr]
  norm_num

/-- C4 amended: in Paper mode, when every proposed capital is valid and
the entry list is non-empty, the locally recomputed percentages sum to
exactly 100. -/
theorem c4_paper_all_valid_sum_100 (tc : ℚ) (pre : List PerfStrategy) (newOrd : List String)
    (upd : List PerfStrategy) (h1 : upd ≠ [])
    (h2 : ∀ s ∈ upd, s.capital.isValid = true) :
    (((saveOrder .PAPER tc pre newOrd upd).newStrategies.map fun s => s.pct)).sum = 100 := by
  have hvc : ∀ s ∈ upd, validCapital pre s = s.capital.toQ := by
    intro s hs; simp [validCapital, h2 s hs]
  have hpos : ∀ s ∈ upd, 0 < s.capital.toQ := by
    intro s hs
    have hv := h2 s hs
    cases hc : s.capital with
    | num q =>
      rw [hc] at hv
      simp [Cap.isValid] at hv
      simpa [Cap.toQ] using hv
    | empty => rw [hc] at hv; simp [Cap.isValid] at hv
  have hSeq : (upd.map (validCapital pre)).sum = (upd.map fun s => s.capital.toQ).sum :=
    congrArg List.sum (List.map_congr_left hvc)
  have hSpos : 0 < (upd.map (validCapital pre)).sum := by
    rw [hSeq]
    apply List.sum_pos
    · intro x hx
      obtain ⟨s, hs, rfl⟩ := List.mem_map.mp hx
      exact hpos s hs
    · simpa using h1
  have hSne : (upd.map (validCapital pre)).sum ≠ 0 := ne_of_gt hSpos
  simp only [saveOrder, List.map_map]
  simp only [eq_false (by decide : ¬ TradingMode.PAPER = TradingMode.REAL), if_false]
  simp only [Function.comp_def, jsOr, if_neg hSne]
  have hterm : ∀ s ∈ upd, s.capital.toQ / (upd.map (validCapital pre)).sum * 100
      = s.capital.toQ * (100 / (upd.map (validCapital pre)).sum) := by
    intro s _
    rw [div_mul_eq_mul_div, mul_div_assoc]
  rw [List.map_congr_left hterm, List.sum_map_mul_right, ← hSeq, mul_comm,
    div_mul_cancel₀ _ hSne]

/-- C4 witness: the all-valid sum-to-100 law at a concrete one-entry
commit. -/
theorem c4_sum_percent_witness :
    (([(⟨"Z", Cap.num 5, 0⟩ : PerfStrategy)] : List PerfStrategy) ≠ [])
    ∧ (∀ s ∈ ([(⟨"Z", Cap.num 5, 0⟩ : PerfStrategy)] : List PerfStrategy),
        s.capital.isValid = true)
    ∧ (((saveOrder .PAPER 0 [] [] [⟨"Z", Cap.num 5, 0⟩]).newStrategies.map fun s => s.pct)).sum
        = 100 :=
  ⟨by simp, by intro s hs; rw [List.mem_singleton.mp hs]; decide,
    c4_paper_all_valid_sum_100 0 [] [] [⟨"Z", Cap.num 5, 0⟩] (by simp)
      (by intro s hs; rw [List.mem_singleton.mp hs]; decide)⟩

/-- C5: for a dual-broadcast push the synchronizer applies the
sub-payload of its current mode — with both sub-documents present, REAL
mode applies exactly the REAL document and PAPER mode exactly the PAPER
document — and falls back to the PAPER document when the key for the
current mode is absent. -/
theorem c5_dual_broadcast_selection (c : StratCanon) (dp dr : SnapshotDoc)
    (hp : dp.strategies.isSome = true) (hr : dr.strategies.isSome = true) :
    stratStep .REAL c (.push (.dual (some dp) (some dr))) = (applyDoc dr, true)
    ∧ stratStep .PAPER c (.push (.dual (some dp) (some dr))) = (applyDoc dp, true)
    ∧ stratStep .REAL c (.push (.dual (some dp) none)) = (applyDoc dp, true) := by
  refine ⟨?_, ?_, ?_⟩ <;> simp [stratStep, selectPayload, hp, hr]

/-- C5 witness: the dual-broadcast selection at concrete documents. -/
theorem c5_dual_broadcast_witness :
    ((⟨some 1, none, none, none, true, none, some []⟩ : SnapshotDoc).strategies.isSome = true)
    ∧ ((⟨some 2, none, none, none, false, none, some []⟩ : SnapshotDoc).strategies.isSome = true)
    ∧ (stratStep .REAL ⟨[], 0, 0, 0, true⟩
        (.push (.dual (some ⟨some 1, none, none, none, true, none, some []⟩)
          (some ⟨some 2, none, none, none, false, none, some []⟩)))
        = (applyDoc ⟨some 2, none, none, none, false, none, some []⟩, true)
      ∧ stratStep .PAPER ⟨[], 0, 0, 0, true⟩
        (.push (.dual (some ⟨some 1, none, none, none, true, none, some []⟩)
          (some ⟨some 2, none, none, none, false, none, some []⟩)))
        = (applyDoc ⟨some 1, none, none, none, true, none, some []⟩, true)
      ∧ stratStep .REAL ⟨[], 0, 0, 0, true⟩
        (.push (.dual (some ⟨some 1, none, none, none, true, none, some []⟩) none))
        = (applyDoc ⟨some 1, none, none, none, true, none, some []⟩, true)) :=
  ⟨rfl, rfl,
    c5_dual_broadcast_selection ⟨[], 0, 0, 0, true⟩
      ⟨some 1, none, none, none, true, none, some []⟩
      ⟨some 2, none, none, none, false, none, some []⟩ rfl rfl⟩

/-- C6: while the Performance synchronizer is paused (the edit modal is
open or a commit is settling) every arriving update — pull tick or push
event — leaves the component state unchanged and fires no callback, with
nothing queued; and once both pause flags are clear, a pull returning a
well-formed document is processed normally. -/
theorem c6_pause_drops_updates (s : PerfState)
    (h : (s.showEditModal || s.isSaving) = true) :
    (∀ e, perfStep s e = (s, false))
    ∧ (∀ (t : PerfState) (d : SnapshotDoc), t.showEditModal = false → t.isSaving = false →
        d.total_capital.isSome = true →
        perfStep t (.pullTick (some d)) = ({ t with canon := applyStats t.canon d }, true)) := by
  constructor
  · intro e
    cases e with
    | pullTick r => simp [perfStep, h]
    | push m => rfl
  · intro t d h1 h2 h3
    simp [perfStep, h1, h2, h3]

/-- C6 witness: a concrete paused state with the edit modal open. -/
theorem c6_pause_witness :
    (((⟨true, false, ⟨0, 0, 0, 0, [], []⟩⟩ : PerfState).showEditModal
      || (⟨true, false, ⟨0, 0, 0, 0, [], []⟩⟩ : PerfState).isSaving) = true)
    ∧ ((∀ e, perfStep ⟨true, false, ⟨0, 0, 0, 0, [], []⟩⟩ e
          = (⟨true, false, ⟨0, 0, 0, 0, [], []⟩⟩, false))
      ∧ (∀ (t : PerfState) (d : SnapshotDoc), t.showEditModal = false → t.isSaving = false →
          d.total_capital.isSome = true →
          perfStep t (.pullTick (some d)) = ({ t with canon := applyStats t.canon d }, true))) :=
  ⟨rfl, c6_pause_drops_updates ⟨true, false, ⟨0, 0, 0, 0, [], []⟩⟩ rfl⟩

/-- C7 counterexample: with an empty persisted order, a low-capital
strategy with the far higher pnl percent is displayed after the
high-capital one — the pinned list is not ranked by descending
pnlPercent. -/
theorem c7_empty_order_counterexample :
    ((displayedAllocations [] (mapPerf [⟨"A", 0, 50, [], 100⟩, ⟨"B", 0, 5, [], 900⟩] 1000)).map
      fun s => s.name) = ["B", "A"]
    ∧ (((rankByPnlDesc [⟨"A", 0, 50, [], 100⟩, ⟨"B", 0, 5, [], 900⟩]).take 5).map
      fun s => s.name) = ["A", "B"]
    ∧ (["B", "A"] : List String) ≠ ["A", "B"] := by
  refine ⟨?_, ?_, by decide⟩
  · simp [displayedAllocations, mapPerf, jsOr, List.insertionSort, List.orderedInsert, pctDesc]
    norm_num
  · simp [rankByPnlDesc, List.insertionSort, List.orderedInsert, pnlDesc]
    norm_num

/-- C7 amended: with an empty persisted order the pinned list is the top
five of the strategies sorted by descending capital-share percent: it is
sorted under pctDesc, drawn from the input strategies, and of length
min 5 n. -/
theorem c7_empty_order_ranks_by_capital_share (ss : List PerfStrategy) :
    List.Sorted pctDesc (displayedAllocations [] ss)
    ∧ displayedAllocations [] ss ⊆ ss
    ∧ (displayedAllocations [] ss).length = min 5 ss.length := by
  have hsorted : List.Sorted pctDesc (List.insertionSort pctDesc ss) :=
    List.sorted_insertionSort pctDesc ss
  have hperm : (List.insertionSort pctDesc ss).Perm ss := List.perm_insertionSort pctDesc ss
  have hdef : displayedAllocations [] ss = (List.insertionSort pctDesc ss).take 5 := by
    simp [displayedAllocations]
  refine ⟨?_, ?_, ?_⟩
  · rw [hdef]
    exact List.Pairwise.sublist (List.take_sublist 5 _) hsorted
  · rw [hdef]
    intro x hx
    exact hperm.subset ((List.take_sublist 5 _).subset hx)
  · rw [hdef, List.length_take, hperm.length_eq]

/-- Helper: the persistence loop as a declarative filterMap over the
proposed entries. -/
theorem allocCalls_filterMap (pre : List PerfStrategy) (upd : List PerfStrategy) :
    allocCalls pre upd = upd.filterMap fun s =>
      match s.capital, pre.find? (fun os => os.name = s.name) with
      | .num qq, some os => if 0 < qq ∧ os.capital ≠ .num qq then some (s.name, qq) else none
      | _, _ => none := by
  induction upd with
  | nil => rfl
  | cons a rest ih =>
    rw [List.filterMap_cons]
    cases hcap : a.capital with
    | empty => simp [allocCalls, hcap, ih]
    | num qq =>
      cases hfind : pre.find? (fun os => os.name = a.name) with
      | none => simp [allocCalls, hcap, hfind, ih]
      | some os =>
        by_cases hcond : 0 < qq ∧ os.capital ≠ .num qq
        · simp [allocCalls, hcap, hfind, hcond, ih]
        · simp [allocCalls, hcap, hfind, hcond, ih]

/-- C8: the commit issues a setAllocation call exactly for the proposed
entries whose capital is valid and differs from the capital of the
pre-edit original found by name; in particular no invalid entry is ever
sent. -/
theorem c8_setAllocation_calls_exact (mode : TradingMode) (tc : ℚ) (pre : List PerfStrategy)
    (newOrd : List String) (upd : List PerfStrategy) (n : String) (q : ℚ) :
    (saveOrder mode tc pre newOrd upd).calls = allocCalls pre upd
    ∧ ((n, q) ∈ allocCalls pre upd ↔
        ∃ s ∈ upd, s.name = n ∧ s.capital = Cap.num q ∧ s.capital.isValid = true
          ∧ ∃ os, pre.find? (fun t => t.name = s.name) = some os ∧ os.capital ≠ Cap.num q) := by
  refine ⟨rfl, ?_⟩
  rw [allocCalls_filterMap, List.mem_filterMap]
  constructor
  · rintro ⟨s, hs, hm⟩
    refine ⟨s, hs, ?_⟩
    cases hcap : s.capital with
    | empty => rw [hcap] at hm; simp at hm
    | num q2 =>
      cases hfind : pre.find? (fun os => os.name = s.name) with
      | none => rw [hcap, hfind] at hm; simp at hm
      | some os =>
        rw [hcap, hfind] at hm
        dsimp only at hm
        by_cases hcond : 0 < q2 ∧ os.capital ≠ Cap.num q2
        · rw [if_pos hcond] at hm
          simp only [Option.some.injEq, Prod.mk.injEq] at hm
          obtain ⟨hn, hq⟩ := hm
          subst hq
          exact ⟨hn, rfl, by simp [Cap.isValid, hcond.1], os, rfl, hcond.2⟩
        · rw [if_neg hcond] at hm
          exact absurd hm (by simp)
  · rintro ⟨s, hs, rfl, hcap, hval, os, hfind, hne⟩
    refine ⟨s, hs, ?_⟩
    have hq : 0 < q := by rw [hcap] at hval; simpa [Cap.isValid] using hval
    rw [hcap, hfind]
    dsimp only
    rw [if_pos ⟨hq, hne⟩]

/-- C9 counterexample: the backend status Sleeping matches no token and
is passed through unchanged — the normalized status is none of the three
claimed enum values Active, Paused, Unknown. -/
theorem c9_passthrough_counterexample :
    ((mapStrategies ⟨some 0, none, none, none, true, none,
        some [⟨"S1", 0, 0, ("Sleeping".data), 0⟩]⟩).map fun m => m.status) = [("Sleeping".data)]
    ∧ ("Sleeping".data) ≠ ("Active".data)
    ∧ ("Sleeping".data) ≠ ("Paused".data)
    ∧ ("Sleeping".data) ≠ ("Unknown".data) :=
  ⟨rfl, by decide, by decide, by decide⟩

/-- C9 amended: mapStrategies normalizes every status through
normStatus, and normStatus yields the literal Active exactly when the
case-insensitive token test (active, monitoring, scanning, or a nifty
lead) succeeds — every other status string is passed through unchanged,
Paused or Unknown only when the backend itself sent those strings. -/
theorem c9_status_normalization :
    (∀ d : SnapshotDoc, ((mapStrategies d).map fun m => m.status) =
        ((d.strategies.getD []).map fun s => normStatus s.status))
    ∧ (∀ raw : List Char,
        (isActuallyActive raw = true ∧ normStatus raw = ("Active".data))
        ∨ (isActuallyActive raw = false ∧ normStatus raw = raw)) := by
  constructor
  · intro d
    cases hds : d.strategies with
    | none => simp [mapStrategies, hds]
    | some ss =>
      simp only [mapStrategies, hds, Option.getD_some, List.map_map]
      rw [show ((fun m : MappedStrategy => m.status) ∘ fun p : ℕ × RawStrategy =>
          ({ id := p.1 + 1,
             name := if p.2.name = "" then "Unknown Strategy" else p.2.name,
             profit := p.2.pnl, profitPct := p.2.pnl_pct,
             status := normStatus p.2.status,
             isPro := decide ((10 : ℚ) < p.2.pnl_pct) } : MappedStrategy))
          = ((fun s : RawStrategy => normStatus s.status) ∘ Prod.snd) from rfl]
      rw [← List.map_map, List.enum_map_snd]
  · intro raw
    by_cases h : isActuallyActive raw = true
    · exact Or.inl ⟨h, by simp [normStatus, h]⟩
    · have h0 : isActuallyActive raw = false := by
        cases hb : isActuallyActive raw
        · rfl
        · exact absurd hb h
      exact Or.inr ⟨h0, by simp [normStatus, h0]⟩

/-- C10: every percentage computation guards its denominator with the
or-one fallback, so the effective divisor is never zero and multiplying
the produced percent back by the divisor recovers capital times 100 — at
the fetchMetrics mapping, the modal row display, and every entry of the
post-commit recomputation. -/
theorem c10_percent_denominator_guard :
    (∀ x : ℚ, jsOr x 1 ≠ 0)
    ∧ (∀ (ss : List RawStrategy) (tc : ℚ), ∀ m ∈ mapPerf ss tc,
        m.pct * jsOr tc 1 = m.capital.toQ * 100)
    ∧ (∀ (s : PerfStrategy) (tc : ℚ), modalPct s tc * jsOr tc 1 = s.capital.toQ * 100)
    ∧ (∀ (mode : TradingMode) (tc : ℚ) (pre : List PerfStrategy) (newOrd : List String)
        (upd : List PerfStrategy), ∀ t ∈ (saveOrder mode tc pre newOrd upd).newStrategies,
        ∃ d : ℚ, d ≠ 0 ∧ t.pct = t.capital.toQ / d * 100 ∧ t.pct * d = t.capital.toQ * 100) := by
  have hguard : ∀ x : ℚ, jsOr x 1 ≠ 0 := by
    intro x
    unfold jsOr
    split
    · exact one_ne_zero
    · assumption
  have hmul : ∀ (a J : ℚ), J ≠ 0 → a / J * 100 * J = a * 100 := by
    intro a J hJ
    rw [mul_right_comm, div_mul_cancel₀ _ hJ]
  refine ⟨hguard, ?_, ?_, ?_⟩
  · intro ss tc m hm
    obtain ⟨s, hs, rfl⟩ := List.mem_map.mp hm
    simpa [Cap.toQ] using hmul s.capital (jsOr tc 1) (hguard tc)
  · intro s tc
    simpa [modalPct] using hmul s.capital.toQ (jsOr tc 1) (hguard tc)
  · intro mode tc pre newOrd upd t ht
    simp only [saveOrder] at ht
    obtain ⟨s, hs, rfl⟩ := List.mem_map.mp ht
    exact ⟨_, hguard _, rfl, hmul _ _ (hguard _)⟩
